import Mathlib

/-!
Verification of the WHOIS query tool (`whois.js`): a shallow embedding of
its hostname normalizer (`getCleanHostname`), its raw-record parser
(`WhoisService.extractDate`, `WhoisService.toDate`,
`WhoisService.parseWhoisOutput`) and the interactive query loop (`main`),
together with proofs about the embedded definitions.

Strings are modelled as `List Char` internally (every function is
structurally recursive, so concrete runs reduce in the kernel); the
`String`-level entry points mirror the JavaScript functions.
-/

/-! ## Character and string primitives -/

/-- The 26 uppercase ASCII letters. -/
def upperAscii : List Char :=
  ['A','B','C','D','E','F','G','H','I','J','K','L','M',
   'N','O','P','Q','R','S','T','U','V','W','X','Y','Z']

/-- ASCII lowercasing of one character.  Models both JavaScript's
`String.prototype.toLowerCase` and the case folding of `/.../i` regexes,
restricted to ASCII (the tool only manipulates ASCII labels and hosts). -/
def lowerChar (c : Char) : Char :=
  if c = 'A' then 'a' else if c = 'B' then 'b' else if c = 'C' then 'c'
  else if c = 'D' then 'd' else if c = 'E' then 'e' else if c = 'F' then 'f'
  else if c = 'G' then 'g' else if c = 'H' then 'h' else if c = 'I' then 'i'
  else if c = 'J' then 'j' else if c = 'K' then 'k' else if c = 'L' then 'l'
  else if c = 'M' then 'm' else if c = 'N' then 'n' else if c = 'O' then 'o'
  else if c = 'P' then 'p' else if c = 'Q' then 'q' else if c = 'R' then 'r'
  else if c = 'S' then 's' else if c = 'T' then 't' else if c = 'U' then 'u'
  else if c = 'V' then 'v' else if c = 'W' then 'w' else if c = 'X' then 'x'
  else if c = 'Y' then 'y' else if c = 'Z' then 'z' else c

/-- Lowercase a character list. -/
def lowerL (l : List Char) : List Char := l.map lowerChar

/-- Surrounding-whitespace trim, modelling `String.prototype.trim`
(restricted to the ASCII whitespace characters space/tab/CR/LF). -/
def trimList (l : List Char) : List Char :=
  ((l.dropWhile Char.isWhitespace).reverse.dropWhile Char.isWhitespace).reverse

/-- `split` on a one-character separator, modelling
`String.prototype.split(sep)`: `"a:b"` gives `["a","b"]`, `""` gives
`[""]`, a trailing separator yields a trailing empty piece. -/
def splitOnChar (sep : Char) : List Char → List (List Char)
  | [] => [[]]
  | c :: rest =>
    if c = sep then [] :: splitOnChar sep rest
    else
      match splitOnChar sep rest with
      | [] => [[c]]
      | h :: t => (c :: h) :: t

/-- Substring containment test: does `pat` occur contiguously in `l`?
Used to model an unanchored regex literal test. -/
def containsSub (pat : List Char) : List Char → Bool
  | [] => pat.isPrefixOf ([] : List Char)
  | c :: rest => pat.isPrefixOf (c :: rest) || containsSub pat rest

/-! ## Date extraction (`WhoisService.extractDate`) -/

/-- Does the list start with the 10-character date shape
`DDDD<sep>DD<sep>DD` (digits `D`)?  Models the regex
`/(\d{4}<sep>\d{2}<sep>\d{2})/` tested at one start position. -/
def patAt (sep : Char) : List Char → Bool
  | a :: b :: c :: d :: s1 :: e :: f :: s2 :: g :: h :: _ =>
    a.isDigit && b.isDigit && c.isDigit && d.isDigit && s1 = sep &&
    e.isDigit && f.isDigit && s2 = sep && g.isDigit && h.isDigit
  | _ => false

/-- Leftmost occurrence of the 10-character date shape, as the regex
`match` does: try each start position from the left, return the matched
characters. -/
def findPat (sep : Char) : List Char → Option (List Char)
  | [] => none
  | c :: rest =>
    if patAt sep (c :: rest) then some ((c :: rest).take 10)
    else findPat sep rest

/-- `replace(/\//g, '-')` on one character. -/
def slashToDash (c : Char) : Char := if c = '/' then '-' else c

/-- `WhoisService.extractDate` on a character list: first search for a
hyphenated `\d{4}-\d{2}-\d{2}` match and return it verbatim; otherwise
search for `\d{4}\/\d{2}\/\d{2}` and return it with the slashes replaced
by hyphens; otherwise no date. -/
def extractDateL (l : List Char) : Option (List Char) :=
  match findPat '-' l with
  | some m => some m
  | none =>
    match findPat '/' l with
    | some m => some (m.map slashToDash)
    | none => none

/-- `WhoisService.extractDate` at the `String` level. -/
def extractDate (line : String) : Option String :=
  (extractDateL line.data).map (fun l => String.mk l)

/-! ## Calendar dates (`WhoisService.toDate`) -/

/-- A calendar date, the value produced by a successful `new Date(...)`
conversion of a canonical `YYYY-MM-DD` string. -/
structure CalDate where
  year : Nat
  month : Nat
  day : Nat
deriving DecidableEq

/-- Gregorian leap-year test. -/
def isLeapYear (y : Nat) : Bool :=
  y % 4 = 0 && (y % 100 ≠ 0 || y % 400 = 0)

/-- Number of days in a month. -/
def daysInMonth (y m : Nat) : Nat :=
  if m = 2 then (if isLeapYear y then 29 else 28)
  else if m = 4 || m = 6 || m = 9 || m = 11 then 30
  else 31

/-- Calendar validity of a year/month/day triple. -/
def validYMD (y m d : Nat) : Bool :=
  1 ≤ m && m ≤ 12 && 1 ≤ d && d ≤ daysInMonth y m

/-- Numeric value of a digit list (most significant first). -/
def digitsToNat (l : List Char) : Nat :=
  l.foldl (fun n c => n * 10 + (c.toNat - 48)) 0

/-- Conversion of a canonical date string to a calendar date.  Models
`new Date(str)` followed by the `isNaN(d.getTime())` check of
`WhoisService.toDate`, restricted to the strings `extractDate` can
produce: a 10-character `YYYY-MM-DD` shape is accepted exactly when it is
a valid calendar date (the JavaScript engine rejects ISO date strings
with out-of-range components, e.g. month 13), and any other string is
rejected. -/
def parseIsoDate (cs : List Char) : Option CalDate :=
  if patAt '-' cs && cs.length = 10 then
    let y := digitsToNat (cs.take 4)
    let mo := digitsToNat ((cs.drop 5).take 2)
    let da := digitsToNat ((cs.drop 8).take 2)
    if validYMD y mo da then some ⟨y, mo, da⟩ else none
  else none

/-- `WhoisService.toDate` on the optional date string held by the parse
state (`null` maps to `null`; a string is converted and validated). -/
def toDateL : Option (List Char) → Option CalDate
  | none => none
  | some cs => parseIsoDate cs

/-! ## Record parsing (`WhoisService.parseWhoisOutput`) -/

/-- The record returned by `parseWhoisOutput`: registrant country plus
creation/update/expiry dates, each independently optional. -/
structure ParsedRecord where
  registrantCountry : Option String
  creationDate : Option CalDate
  updatedDate : Option CalDate
  expiryDate : Option CalDate
deriving DecidableEq

/-- The mutable loop state of `parseWhoisOutput` while scanning lines:
the country value and the three date strings found so far. -/
structure ParseState where
  registrantCountry : Option (List Char)
  creationDate : Option (List Char)
  updatedDate : Option (List Char)
  expiryDate : Option (List Char)
deriving DecidableEq

/-- `/registrant country:/i.test(line) || /^country:/i.test(line)`. -/
def countryMatch (l : List Char) : Bool :=
  containsSub ("registrant country:").data (lowerL l) ||
  ("country:").data.isPrefixOf (lowerL l)

/-- `/created on:/i || /creation date:/i || /registered on:/i`. -/
def creationMatch (l : List Char) : Bool :=
  containsSub ("created on:").data (lowerL l) ||
  containsSub ("creation date:").data (lowerL l) ||
  containsSub ("registered on:").data (lowerL l)

/-- `/updated on:/i || /last updated on:/i || /updated date:/i`. -/
def updatedMatch (l : List Char) : Bool :=
  containsSub ("updated on:").data (lowerL l) ||
  containsSub ("last updated on:").data (lowerL l) ||
  containsSub ("updated date:").data (lowerL l)

/-- `/expiration date:/i || /expires on:/i || /expiry date:/i`. -/
def expiryMatch (l : List Char) : Bool :=
  containsSub ("expiration date:").data (lowerL l) ||
  containsSub ("expires on:").data (lowerL l) ||
  containsSub ("expiry date:").data (lowerL l)

/-- The country value of a line: `line.split(':').map(p => p.trim())[1]`,
taken only when truthy (present and non-empty). -/
def countryVal (l : List Char) : Option (List Char) :=
  match ((splitOnChar ':' l).map trimList).get? 1 with
  | some p => if p = [] then none else some p
  | none => none

/-- The country value a line contributes: `countryVal` when the line
matches a country label, nothing otherwise. -/
def producesCountry (l : List Char) : Option (List Char) :=
  if countryMatch l then countryVal l else none

/-- The country block of the per-line loop body. -/
def countryStep (st : ParseState) (l : List Char) : ParseState :=
  if countryMatch l then
    match countryVal l with
    | some v => { st with registrantCountry := some v }
    | none => st
  else st

/-- The creation-date block of the per-line loop body. -/
def creationStep (st : ParseState) (l : List Char) : ParseState :=
  if creationMatch l then
    match extractDateL l with
    | some d => { st with creationDate := some d }
    | none => st
  else st

/-- The update-date block of the per-line loop body. -/
def updatedStep (st : ParseState) (l : List Char) : ParseState :=
  if updatedMatch l then
    match extractDateL l with
    | some d => { st with updatedDate := some d }
    | none => st
  else st

/-- The expiry-date block of the per-line loop body. -/
def expiryStep (st : ParseState) (l : List Char) : ParseState :=
  if expiryMatch l then
    match extractDateL l with
    | some d => { st with expiryDate := some d }
    | none => st
  else st

/-- One iteration of the `for (const line of lines)` loop: the four
blocks in source order. -/
def lineStep (st : ParseState) (l : List Char) : ParseState :=
  expiryStep (updatedStep (creationStep (countryStep st l) l) l) l

/-- The full line scan, starting from the all-`null` state. -/
def parseLines (ls : List (List Char)) : ParseState :=
  ls.foldl lineStep ⟨none, none, none, none⟩

/-- The `return { ... }` of `parseWhoisOutput`: package the country and
convert each date string with `toDate`. -/
def finalize (st : ParseState) : ParsedRecord :=
  { registrantCountry := st.registrantCountry.map (fun l => String.mk l)
    creationDate := toDateL st.creationDate
    updatedDate := toDateL st.updatedDate
    expiryDate := toDateL st.expiryDate }

/-- `WhoisService.parseWhoisOutput`: split the raw text on newlines, trim
every line, scan the lines in order, convert at the end.  Total: every
input yields a `ParsedRecord`, absence of a field being the only failure
mode. -/
def parseWhoisOutput (rawData : String) : ParsedRecord :=
  finalize (parseLines ((splitOnChar '\n' rawData.data).map trimList))

/-! ## Hostname normalization (`getCleanHostname`)

The host extraction of `new URL(...)` is modelled for ASCII inputs with
domain hosts: scheme stripped case-insensitively, extra slashes after the
scheme skipped, the authority delimited by `/ ? # \`, userinfo (up to the
last `@`) dropped, the port split off at `:` and required to be a number
of at most 65535, the host required non-empty and free of forbidden host
code points.  Not modelled (irrelevant to the repository's inputs and the
claims): IDNA/punycode of non-ASCII hosts, percent-decoding, IPv4/IPv6
canonical forms, and the removal of embedded tab/newline characters.  The
WHATWG lowercasing of the host is subsumed by the explicit
`.toLowerCase()` call of `getCleanHostname` (lowercasing is idempotent).
-/

/-- Forbidden host code points of the URL standard (domain hosts):
controls, space, delete and `# % / : < > ? @ [ \ ] ^ |`. -/
def forbiddenHostChar (c : Char) : Bool :=
  c.toNat < 32 || c.toNat = 127 ||
  c = ' ' || c = '#' || c = '%' || c = '/' || c = ':' || c = '<' ||
  c = '>' || c = '?' || c = '@' || c = '[' || c = '\\' || c = ']' ||
  c = '^' || c = '|'

/-- The regex test `/^https?:\/\//i`. -/
def schemeTest (t : List Char) : Bool :=
  ("http://").data.isPrefixOf (lowerL t) ||
  ("https://").data.isPrefixOf (lowerL t)

/-- Drop a recognized scheme (case-insensitively); fail otherwise. -/
def stripSchemeCI (t : List Char) : Option (List Char) :=
  if ("https://").data.isPrefixOf (lowerL t) then some (t.drop 8)
  else if ("http://").data.isPrefixOf (lowerL t) then some (t.drop 7)
  else none

/-- Drop the userinfo part of an authority: keep what follows the last
`@` (everything, when there is none). -/
def dropUserinfo (l : List Char) : List Char :=
  (l.reverse.takeWhile (fun c => c != '@')).reverse

/-- The authority of the remainder after the scheme: skip extra slashes,
then take up to the first `/ ? # \`. -/
def authorityOf (rest : List Char) : List Char :=
  (rest.dropWhile (fun c => c == '/' || c == '\\')).takeWhile
    (fun c => c != '/' && c != '?' && c != '#' && c != '\\')

/-- Host and port portion of the authority (userinfo removed). -/
def hostPortOf (rest : List Char) : List Char :=
  dropUserinfo (authorityOf rest)

/-- The host: the part of host-port before the first `:`. -/
def hostOf (rest : List Char) : List Char :=
  (hostPortOf rest).takeWhile (fun c => c != ':')

/-- The port digits: the part of host-port after the first `:`. -/
def portOf (rest : List Char) : List Char :=
  ((hostPortOf rest).dropWhile (fun c => c != ':')).drop 1

/-- Host validity: non-empty, ASCII, no forbidden host code point. -/
def hostOk (host : List Char) : Bool :=
  !host.isEmpty && host.all (fun c => !forbiddenHostChar c && decide (c.toNat < 128))

/-- Port validity: all digits and, when non-empty, at most 65535. -/
def portOk (port : List Char) : Bool :=
  port.all Char.isDigit && (port.isEmpty || decide (digitsToNat port ≤ 65535))

/-- `new URL(t).hostname` (before lowercasing), or `none` when URL
construction throws. -/
def parseURLHost (t : List Char) : Option (List Char) :=
  match stripSchemeCI t with
  | none => none
  | some rest =>
    if hostOk (hostOf rest) && portOk (portOf rest) then some (hostOf rest)
    else none

/-- The scheme-defaulting step of `getCleanHostname`: prepend `http://`
unless the trimmed input already carries a recognized scheme. -/
def withScheme (t : List Char) : List Char :=
  if schemeTest t then t else ("http://").data ++ t

/-- Strip exactly one leading `www.` label, as
`hostname.startsWith('www.')` / `hostname.substring(4)` does. -/
def stripWww (l : List Char) : List Char :=
  if ("www.").data.isPrefixOf l then l.drop 4 else l

/-- `getCleanHostname`: reject the empty input, trim, default the scheme,
parse as a URL (null on failure), lowercase the host and strip one
leading `www.`. -/
def getCleanHostname (urlInput : String) : Option String :=
  if urlInput.data.isEmpty then none
  else
    match parseURLHost (withScheme (trimList urlInput.data)) with
    | none => none
    | some host => some (String.mk (stripWww (lowerL host)))

/-! ## The query loop (`main`) -/

/-- The observable states of the interactive loop: waiting for the next
URL, or terminated. -/
inductive LoopState where
  | awaitingInput
  | done
deriving DecidableEq

/-- One iteration of the `while (true)` loop of `main`, parameterized by
the external WHOIS lookup (an oracle returning raw text or an error
message).  The prompt's answer is trimmed by `ask`; an empty answer
breaks the loop; a failed normalization, a failed lookup, and a
successful lookup (which is parsed and printed) all return to the
prompt. -/
def loopStep (answer : String) (lookup : String → Except String String) : LoopState :=
  if trimList answer.data = [] then LoopState.done
  else
    match getCleanHostname (String.mk (trimList answer.data)) with
    | none => LoopState.awaitingInput
    | some hostname =>
      match lookup hostname with
      | Except.error _ => LoopState.awaitingInput
      | Except.ok _raw => LoopState.awaitingInput

/-! ## Lemmas about the date scanner -/

/-- Some start position of `l` carries the 10-character date shape. -/
def HasDatePat (sep : Char) (l : List Char) : Prop :=
  ∃ i, patAt sep (l.drop i) = true

/-- When the scan fails, no start position matches. -/
theorem findPat_none_spec (sep : Char) (l : List Char) (h : findPat sep l = none) :
    ∀ i, patAt sep (l.drop i) = false := by
  induction l with
  | nil => intro i; rw [List.drop_nil]; rfl
  | cons c rest ih =>
    intro i
    unfold findPat at h
    by_cases hp : patAt sep (c :: rest) = true
    · rw [if_pos hp] at h; exact absurd h (by simp)
    · rw [if_neg hp] at h
      cases i with
      | zero => rw [List.drop_zero]; simpa using hp
      | succ i => rw [List.drop_succ_cons]; exact ih h i

/-- When the scan succeeds, it returns the 10 characters at the leftmost
matching start position. -/
theorem findPat_some_spec (sep : Char) :
    ∀ l m : List Char, findPat sep l = some m →
      ∃ j, patAt sep (l.drop j) = true ∧ m = (l.drop j).take 10 ∧
        ∀ k, patAt sep (l.drop k) = true → j ≤ k := by
  intro l
  induction l with
  | nil => intro m h; simp [findPat] at h
  | cons c rest ih =>
    intro m h
    unfold findPat at h
    by_cases hp : patAt sep (c :: rest) = true
    · rw [if_pos hp] at h
      refine ⟨0, by simpa using hp, ?_, fun k _ => Nat.zero_le k⟩
      rw [List.drop_zero]
      exact (Option.some_injective _ h).symm
    · rw [if_neg hp] at h
      obtain ⟨j, hj, hm, hmin⟩ := ih m h
      refine ⟨j + 1, ?_, ?_, ?_⟩
      · rw [List.drop_succ_cons]; exact hj
      · rw [List.drop_succ_cons]; exact hm
      · intro k hk
        cases k with
        | zero => rw [List.drop_zero] at hk; exact absurd hk hp
        | succ k =>
          rw [List.drop_succ_cons] at hk
          exact Nat.succ_le_succ (hmin k hk)

/-- A matching position forces the scan to succeed. -/
theorem findPat_isSome_of_has (sep : Char) (l : List Char) (h : HasDatePat sep l) :
    ∃ m, findPat sep l = some m := by
  cases hf : findPat sep l with
  | none =>
    obtain ⟨i, hi⟩ := h
    rw [findPat_none_spec sep l hf i] at hi
    exact absurd hi (by simp)
  | some m => exact ⟨m, rfl⟩

/-- No matching position forces the scan to fail. -/
theorem findPat_eq_none_of_not_has (sep : Char) (l : List Char)
    (h : ¬ HasDatePat sep l) : findPat sep l = none := by
  cases hf : findPat sep l with
  | none => rfl
  | some m =>
    obtain ⟨j, hj, _, _⟩ := findPat_some_spec sep l m hf
    exact absurd ⟨j, hj⟩ h

/-- Claim C1: on any line, `extractDate` returns a `YYYY-MM-DD` substring
verbatim when one is present, else a `YYYY/MM/DD` substring with the two
slashes replaced by hyphens when one is present, else no date; in
particular `Creation Date: 2020/05/01 ...` yields `"2020-05-01"` and
`created on: 1997-09-15` yields `"1997-09-15"`. -/
theorem extractDate_matches_spec (line : String) :
    (HasDatePat '-' line.data →
      ∃ i, patAt '-' (line.data.drop i) = true ∧
        extractDate line = some (String.mk ((line.data.drop i).take 10))) ∧
    (¬ HasDatePat '-' line.data → HasDatePat '/' line.data →
      ∃ i, patAt '/' (line.data.drop i) = true ∧
        extractDate line = some (String.mk (((line.data.drop i).take 10).map slashToDash))) ∧
    (¬ HasDatePat '-' line.data → ¬ HasDatePat '/' line.data →
      extractDate line = none) ∧
    extractDate "Creation Date: 2020/05/01 ..." = some "2020-05-01" ∧
    extractDate "created on: 1997-09-15" = some "1997-09-15" := by
  refine ⟨?_, ?_, ?_, by decide, by decide⟩
  · intro h
    obtain ⟨m, hm⟩ := findPat_isSome_of_has '-' line.data h
    obtain ⟨j, hj, hmj, _⟩ := findPat_some_spec '-' line.data m hm
    refine ⟨j, hj, ?_⟩
    simp only [extractDate, extractDateL, hm, Option.map_some']
    rw [hmj]
  · intro hno h
    have hn : findPat '-' line.data = none := findPat_eq_none_of_not_has '-' line.data hno
    obtain ⟨m, hm⟩ := findPat_isSome_of_has '/' line.data h
    obtain ⟨j, hj, hmj, _⟩ := findPat_some_spec '/' line.data m hm
    refine ⟨j, hj, ?_⟩
    simp only [extractDate, extractDateL, hn, hm, Option.map_some']
    rw [hmj]
  · intro h1 h2
    have hn1 : findPat '-' line.data = none := findPat_eq_none_of_not_has '-' line.data h1
    have hn2 : findPat '/' line.data = none := findPat_eq_none_of_not_has '/' line.data h2
    simp [extractDate, extractDateL, hn1, hn2]

/-- Witness for C1 at the concrete line `created on: 1997-09-15`. -/
theorem extractDate_matches_spec_witness :
    ∃ i, patAt '-' (("created on: 1997-09-15").data.drop i) = true ∧
      extractDate "created on: 1997-09-15" =
        some (String.mk ((("created on: 1997-09-15").data.drop i).take 10)) :=
  (extractDate_matches_spec "created on: 1997-09-15").1 ⟨12, by decide⟩

/-- Claim C10: when several candidate dates occur in one line, the
leftmost `YYYY-MM-DD` match wins whenever at least one exists, even if a
`YYYY/MM/DD` substring occurs earlier; only in the absence of hyphenated
matches is the leftmost `YYYY/MM/DD` substring used. -/
theorem extractDate_leftmost (line : String) :
    (∀ i, patAt '-' (line.data.drop i) = true →
      ∃ j, patAt '-' (line.data.drop j) = true ∧
        (∀ k, patAt '-' (line.data.drop k) = true → j ≤ k) ∧
        extractDate line = some (String.mk ((line.data.drop j).take 10))) ∧
    (¬ HasDatePat '-' line.data →
      ∀ i, patAt '/' (line.data.drop i) = true →
      ∃ j, patAt '/' (line.data.drop j) = true ∧
        (∀ k, patAt '/' (line.data.drop k) = true → j ≤ k) ∧
        extractDate line = some (String.mk (((line.data.drop j).take 10).map slashToDash))) ∧
    extractDate "changed: 2020/01/02 then 2021-03-04" = some "2021-03-04" := by
  refine ⟨?_, ?_, by decide⟩
  · intro i hi
    obtain ⟨m, hm⟩ := findPat_isSome_of_has '-' line.data ⟨i, hi⟩
    obtain ⟨j, hj, hmj, hmin⟩ := findPat_some_spec '-' line.data m hm
    refine ⟨j, hj, hmin, ?_⟩
    simp only [extractDate, extractDateL, hm, Option.map_some']
    rw [hmj]
  · intro hno i hi
    have hn : findPat '-' line.data = none := findPat_eq_none_of_not_has '-' line.data hno
    obtain ⟨m, hm⟩ := findPat_isSome_of_has '/' line.data ⟨i, hi⟩
    obtain ⟨j, hj, hmj, hmin⟩ := findPat_some_spec '/' line.data m hm
    refine ⟨j, hj, hmin, ?_⟩
    simp only [extractDate, extractDateL, hn, hm, Option.map_some']
    rw [hmj]

/-- Witness for C10 at the concrete line `Updated Date: 2022-09-20`. -/
theorem extractDate_leftmost_witness :
    ∃ j, patAt '-' (("Updated Date: 2022-09-20").data.drop j) = true ∧
      (∀ k, patAt '-' (("Updated Date: 2022-09-20").data.drop k) = true → j ≤ k) ∧
      extractDate "Updated Date: 2022-09-20" =
        some (String.mk ((("Updated Date: 2022-09-20").data.drop j).take 10)) :=
  (extractDate_leftmost "Updated Date: 2022-09-20").1 14 (by decide)

/-- Claim C2: the three normalization examples — scheme recognized
case-insensitively, host lowercased, path discarded, one leading `www.`
stripped, parse failure yields null. -/
theorem getCleanHostname_examples :
    getCleanHostname "https://WWW.Example.com/path" = some "example.com" ∧
    getCleanHostname "example.com" = some "example.com" ∧
    getCleanHostname "not a url" = none := by decide

/-! ## Lemmas about the per-line parser steps -/

/-- The creation block never touches the country field. -/
theorem creationStep_rc (st : ParseState) (l : List Char) :
    (creationStep st l).registrantCountry = st.registrantCountry := by
  unfold creationStep
  split
  · split <;> rfl
  · rfl

/-- The update block never touches the country field. -/
theorem updatedStep_rc (st : ParseState) (l : List Char) :
    (updatedStep st l).registrantCountry = st.registrantCountry := by
  unfold updatedStep
  split
  · split <;> rfl
  · rfl

/-- The expiry block never touches the country field. -/
theorem expiryStep_rc (st : ParseState) (l : List Char) :
    (expiryStep st l).registrantCountry = st.registrantCountry := by
  unfold expiryStep
  split
  · split <;> rfl
  · rfl

/-- The country field after a full line is the country field after the
country block. -/
theorem lineStep_rc (st : ParseState) (l : List Char) :
    (lineStep st l).registrantCountry = (countryStep st l).registrantCountry := by
  unfold lineStep
  rw [expiryStep_rc, updatedStep_rc, creationStep_rc]

/-- A line producing a country value sets the field to that value. -/
theorem countryStep_rc_some (st : ParseState) (l v : List Char)
    (h : producesCountry l = some v) :
    (countryStep st l).registrantCountry = some v := by
  unfold producesCountry at h
  by_cases hm : countryMatch l = true
  · rw [if_pos hm] at h
    unfold countryStep
    rw [if_pos hm, h]
  · rw [if_neg hm] at h
    exact absurd h (by simp)

/-- A line producing no country value leaves the field unchanged. -/
theorem countryStep_rc_none (st : ParseState) (l : List Char)
    (h : producesCountry l = none) :
    (countryStep st l).registrantCountry = st.registrantCountry := by
  unfold producesCountry at h
  by_cases hm : countryMatch l = true
  · rw [if_pos hm] at h
    unfold countryStep
    rw [if_pos hm, h]
  · unfold countryStep
    rw [if_neg hm]

/-- Folding over lines that produce no country value leaves the country
field unchanged. -/
theorem foldl_rc_none (ys : List (List Char)) :
    ∀ st : ParseState, (∀ l ∈ ys, producesCountry l = none) →
      (ys.foldl lineStep st).registrantCountry = st.registrantCountry := by
  induction ys with
  | nil => intro st _; rfl
  | cons a t ih =>
    intro st h
    rw [List.foldl_cons, ih _ (fun l hl => h l (List.mem_cons_of_mem a hl)),
        lineStep_rc, countryStep_rc_none st a (h a (List.mem_cons_self a t))]

/-- The date string a line contributes to the creation field:
`extractDate` of the line when it matches a creation label, nothing
otherwise. -/
def producesCreation (l : List Char) : Option (List Char) :=
  if creationMatch l then extractDateL l else none

/-- The date string a line contributes to the update field. -/
def producesUpdated (l : List Char) : Option (List Char) :=
  if updatedMatch l then extractDateL l else none

/-- The date string a line contributes to the expiry field. -/
def producesExpiry (l : List Char) : Option (List Char) :=
  if expiryMatch l then extractDateL l else none

/-- The country block never touches the creation field. -/
theorem countryStep_cd (st : ParseState) (l : List Char) :
    (countryStep st l).creationDate = st.creationDate := by
  unfold countryStep
  split
  · split <;> rfl
  · rfl

/-- The update block never touches the creation field. -/
theorem updatedStep_cd (st : ParseState) (l : List Char) :
    (updatedStep st l).creationDate = st.creationDate := by
  unfold updatedStep
  split
  · split <;> rfl
  · rfl

/-- The expiry block never touches the creation field. -/
theorem expiryStep_cd (st : ParseState) (l : List Char) :
    (expiryStep st l).creationDate = st.creationDate := by
  unfold expiryStep
  split
  · split <;> rfl
  · rfl

/-- The country block never touches the update field. -/
theorem countryStep_ud (st : ParseState) (l : List Char) :
    (countryStep st l).updatedDate = st.updatedDate := by
  unfold countryStep
  split
  · split <;> rfl
  · rfl

/-- The creation block never touches the update field. -/
theorem creationStep_ud (st : ParseState) (l : List Char) :
    (creationStep st l).updatedDate = st.updatedDate := by
  unfold creationStep
  split
  · split <;> rfl
  · rfl

/-- The expiry block never touches the update field. -/
theorem expiryStep_ud (st : ParseState) (l : List Char) :
    (expiryStep st l).updatedDate = st.updatedDate := by
  unfold expiryStep
  split
  · split <;> rfl
  · rfl

/-- The country block never touches the expiry field. -/
theorem countryStep_ed (st : ParseState) (l : List Char) :
    (countryStep st l).expiryDate = st.expiryDate := by
  unfold countryStep
  split
  · split <;> rfl
  · rfl

/-- The creation block never touches the expiry field. -/
theorem creationStep_ed (st : ParseState) (l : List Char) :
    (creationStep st l).expiryDate = st.expiryDate := by
  unfold creationStep
  split
  · split <;> rfl
  · rfl

/-- The update block never touches the expiry field. -/
theorem updatedStep_ed (st : ParseState) (l : List Char) :
    (updatedStep st l).expiryDate = st.expiryDate := by
  unfold updatedStep
  split
  · split <;> rfl
  · rfl

/-- A line producing a creation date sets that field to it. -/
theorem creationStep_cd_some (st : ParseState) (l v : List Char)
    (h : producesCreation l = some v) : (creationStep st l).creationDate = some v := by
  unfold producesCreation at h
  by_cases hm : creationMatch l = true
  · rw [if_pos hm] at h
    unfold creationStep
    rw [if_pos hm, h]
  · rw [if_neg hm] at h
    exact absurd h (by simp)

/-- A line producing no creation date leaves that field unchanged. -/
theorem creationStep_cd_none (st : ParseState) (l : List Char)
    (h : producesCreation l = none) : (creationStep st l).creationDate = st.creationDate := by
  unfold producesCreation at h
  by_cases hm : creationMatch l = true
  · rw [if_pos hm] at h
    unfold creationStep
    rw [if_pos hm, h]
  · unfold creationStep
    rw [if_neg hm]

/-- A line producing an update date sets that field to it. -/
theorem updatedStep_ud_some (st : ParseState) (l v : List Char)
    (h : producesUpdated l = some v) : (updatedStep st l).updatedDate = some v := by
  unfold producesUpdated at h
  by_cases hm : updatedMatch l = true
  · rw [if_pos hm] at h
    unfold updatedStep
    rw [if_pos hm, h]
  · rw [if_neg hm] at h
    exact absurd h (by simp)

/-- A line producing no update date leaves that field unchanged. -/
theorem updatedStep_ud_none (st : ParseState) (l : List Char)
    (h : producesUpdated l = none) : (updatedStep st l).updatedDate = st.updatedDate := by
  unfold producesUpdated at h
  by_cases hm : updatedMatch l = true
  · rw [if_pos hm] at h
    unfold updatedStep
    rw [if_pos hm, h]
  · unfold updatedStep
    rw [if_neg hm]

/-- A line producing an expiry date sets that field to it. -/
theorem expiryStep_ed_some (st : ParseState) (l v : List Char)
    (h : producesExpiry l = some v) : (expiryStep st l).expiryDate = some v := by
  unfold producesExpiry at h
  by_cases hm : expiryMatch l = true
  · rw [if_pos hm] at h
    unfold expiryStep
    rw [if_pos hm, h]
  · rw [if_neg hm] at h
    exact absurd h (by simp)

/-- A line producing no expiry date leaves that field unchanged. -/
theorem expiryStep_ed_none (st : ParseState) (l : List Char)
    (h : producesExpiry l = none) : (expiryStep st l).expiryDate = st.expiryDate := by
  unfold producesExpiry at h
  by_cases hm : expiryMatch l = true
  · rw [if_pos hm] at h
    unfold expiryStep
    rw [if_pos hm, h]
  · unfold expiryStep
    rw [if_neg hm]

/-- The creation field after a full line is the creation field after the
creation block. -/
theorem lineStep_cd (st : ParseState) (l : List Char) :
    (lineStep st l).creationDate = (creationStep (countryStep st l) l).creationDate := by
  unfold lineStep
  rw [expiryStep_cd, updatedStep_cd]

/-- The update field after a full line is the update field after the
update block. -/
theorem lineStep_ud (st : ParseState) (l : List Char) :
    (lineStep st l).updatedDate
      = (updatedStep (creationStep (countryStep st l) l) l).updatedDate := by
  unfold lineStep
  rw [expiryStep_ud]

/-- A line producing a creation date forces the field after the line. -/
theorem lineStep_cd_some (st : ParseState) (l v : List Char)
    (h : producesCreation l = some v) : (lineStep st l).creationDate = some v := by
  rw [lineStep_cd]
  exact creationStep_cd_some _ l v h

/-- A line producing no creation date preserves the field. -/
theorem lineStep_cd_none (st : ParseState) (l : List Char)
    (h : producesCreation l = none) : (lineStep st l).creationDate = st.creationDate := by
  rw [lineStep_cd, creationStep_cd_none _ l h, countryStep_cd]

/-- A line producing an update date forces the field after the line. -/
theorem lineStep_ud_some (st : ParseState) (l v : List Char)
    (h : producesUpdated l = some v) : (lineStep st l).updatedDate = some v := by
  rw [lineStep_ud]
  exact updatedStep_ud_some _ l v h

/-- A line producing no update date preserves the field. -/
theorem lineStep_ud_none (st : ParseState) (l : List Char)
    (h : producesUpdated l = none) : (lineStep st l).updatedDate = st.updatedDate := by
  rw [lineStep_ud, updatedStep_ud_none _ l h, creationStep_ud, countryStep_ud]

/-- A line producing an expiry date forces the field after the line. -/
theorem lineStep_ed_some (st : ParseState) (l v : List Char)
    (h : producesExpiry l = some v) : (lineStep st l).expiryDate = some v := by
  unfold lineStep
  exact expiryStep_ed_some _ l v h

/-- A line producing no expiry date preserves the field. -/
theorem lineStep_ed_none (st : ParseState) (l : List Char)
    (h : producesExpiry l = none) : (lineStep st l).expiryDate = st.expiryDate := by
  unfold lineStep
  rw [expiryStep_ed_none _ l h, updatedStep_ed, creationStep_ed, countryStep_ed]

/-- Folding over lines that produce no creation date leaves the field
unchanged. -/
theorem foldl_cd_none (ys : List (List Char)) :
    ∀ st : ParseState, (∀ l ∈ ys, producesCreation l = none) →
      (ys.foldl lineStep st).creationDate = st.creationDate := by
  induction ys with
  | nil => intro st _; rfl
  | cons a t ih =>
    intro st h
    rw [List.foldl_cons, ih _ (fun l hl => h l (List.mem_cons_of_mem a hl)),
        lineStep_cd_none st a (h a (List.mem_cons_self a t))]

/-- Folding over lines that produce no update date leaves the field
unchanged. -/
theorem foldl_ud_none (ys : List (List Char)) :
    ∀ st : ParseState, (∀ l ∈ ys, producesUpdated l = none) →
      (ys.foldl lineStep st).updatedDate = st.updatedDate := by
  induction ys with
  | nil => intro st _; rfl
  | cons a t ih =>
    intro st h
    rw [List.foldl_cons, ih _ (fun l hl => h l (List.mem_cons_of_mem a hl)),
        lineStep_ud_none st a (h a (List.mem_cons_self a t))]

/-- Folding over lines that produce no expiry date leaves the field
unchanged. -/
theorem foldl_ed_none (ys : List (List Char)) :
    ∀ st : ParseState, (∀ l ∈ ys, producesExpiry l = none) →
      (ys.foldl lineStep st).expiryDate = st.expiryDate := by
  induction ys with
  | nil => intro st _; rfl
  | cons a t ih =>
    intro st h
    rw [List.foldl_cons, ih _ (fun l hl => h l (List.mem_cons_of_mem a hl)),
        lineStep_ed_none st a (h a (List.mem_cons_self a t))]

/-- Claim C3: lines are evaluated independently in order and, for every
one of the four fields, a later matching line overwrites an earlier one
(last-match-wins): whenever the trimmed line list decomposes as
`xs ++ l :: ys` with `l` producing a value for a field and nothing in
`ys` producing one for that field, the output field comes from `l`
(dates through the final conversion); in particular
`Registrant Country: US` followed later by `Country: CA` yields `"CA"`,
and a repeated creation/update/expiry label keeps the later date. -/
theorem parse_last_match_wins :
    (∀ (raw : String) (xs ys : List (List Char)) (l v : List Char),
      (splitOnChar '\n' raw.data).map trimList = xs ++ l :: ys →
      producesCountry l = some v →
      (∀ l2 ∈ ys, producesCountry l2 = none) →
      (parseWhoisOutput raw).registrantCountry = some (String.mk v)) ∧
    (∀ (raw : String) (xs ys : List (List Char)) (l v : List Char),
      (splitOnChar '\n' raw.data).map trimList = xs ++ l :: ys →
      producesCreation l = some v →
      (∀ l2 ∈ ys, producesCreation l2 = none) →
      (parseWhoisOutput raw).creationDate = parseIsoDate v) ∧
    (∀ (raw : String) (xs ys : List (List Char)) (l v : List Char),
      (splitOnChar '\n' raw.data).map trimList = xs ++ l :: ys →
      producesUpdated l = some v →
      (∀ l2 ∈ ys, producesUpdated l2 = none) →
      (parseWhoisOutput raw).updatedDate = parseIsoDate v) ∧
    (∀ (raw : String) (xs ys : List (List Char)) (l v : List Char),
      (splitOnChar '\n' raw.data).map trimList = xs ++ l :: ys →
      producesExpiry l = some v →
      (∀ l2 ∈ ys, producesExpiry l2 = none) →
      (parseWhoisOutput raw).expiryDate = parseIsoDate v) ∧
    (parseWhoisOutput "Registrant Country: US\nDomain: x\nCountry: CA").registrantCountry
      = some "CA" ∧
    (parseWhoisOutput "Creation Date: 2020-01-01\nCreation Date: 2021-02-02").creationDate
      = some ⟨2021, 2, 2⟩ ∧
    (parseWhoisOutput "Updated Date: 2020-03-03\nLast Updated On: 2022-04-04").updatedDate
      = some ⟨2022, 4, 4⟩ ∧
    (parseWhoisOutput "Expiry Date: 2024-05-05\nExpiration Date: 2030-06-06").expiryDate
      = some ⟨2030, 6, 6⟩ := by
  refine ⟨?_, ?_, ?_, ?_, by decide, by decide, by decide, by decide⟩
  · intro raw xs ys l v hsplit hv hys
    unfold parseWhoisOutput parseLines
    rw [hsplit, List.foldl_append, List.foldl_cons]
    show ((ys.foldl lineStep _).registrantCountry).map (fun l => String.mk l)
      = some (String.mk v)
    rw [foldl_rc_none ys _ hys, lineStep_rc, countryStep_rc_some _ l v hv]
    rfl
  · intro raw xs ys l v hsplit hv hys
    unfold parseWhoisOutput parseLines
    rw [hsplit, List.foldl_append, List.foldl_cons]
    show toDateL ((ys.foldl lineStep _).creationDate) = parseIsoDate v
    rw [foldl_cd_none ys _ hys, lineStep_cd_some _ l v hv]
    rfl
  · intro raw xs ys l v hsplit hv hys
    unfold parseWhoisOutput parseLines
    rw [hsplit, List.foldl_append, List.foldl_cons]
    show toDateL ((ys.foldl lineStep _).updatedDate) = parseIsoDate v
    rw [foldl_ud_none ys _ hys, lineStep_ud_some _ l v hv]
    rfl
  · intro raw xs ys l v hsplit hv hys
    unfold parseWhoisOutput parseLines
    rw [hsplit, List.foldl_append, List.foldl_cons]
    show toDateL ((ys.foldl lineStep _).expiryDate) = parseIsoDate v
    rw [foldl_ed_none ys _ hys, lineStep_ed_some _ l v hv]
    rfl

/-- Witness for C3 on two-line records, for the country branch and a
date branch. -/
theorem parse_last_match_wins_witness :
    (parseWhoisOutput "Registrant Country: US\nCountry: CA").registrantCountry
      = some (String.mk ("CA").data) ∧
    (parseWhoisOutput "Creation Date: 2020-01-01\nCreation Date: 2021-02-02").creationDate
      = parseIsoDate (("2021-02-02").data) :=
  ⟨parse_last_match_wins.1 "Registrant Country: US\nCountry: CA"
    [("Registrant Country: US").data] [] (("Country: CA").data) (("CA").data)
    (by decide) (by decide) (fun l2 hl => absurd hl (List.not_mem_nil l2)),
   parse_last_match_wins.2.1 "Creation Date: 2020-01-01\nCreation Date: 2021-02-02"
    [("Creation Date: 2020-01-01").data] [] (("Creation Date: 2021-02-02").data)
    (("2021-02-02").data)
    (by decide) (by decide) (fun l2 hl => absurd hl (List.not_mem_nil l2))⟩

/-- Does a line match any of the ten labels the parser knows? -/
def anyLabelMatch (l : List Char) : Bool :=
  countryMatch l || creationMatch l || updatedMatch l || expiryMatch l

/-- A line matching no label leaves the state unchanged. -/
theorem lineStep_id_of_no_label (st : ParseState) (l : List Char)
    (h : anyLabelMatch l = false) : lineStep st l = st := by
  have h1 : countryMatch l = false := by
    revert h; unfold anyLabelMatch; cases countryMatch l <;> simp
  have h2 : creationMatch l = false := by
    revert h; unfold anyLabelMatch; cases creationMatch l <;> simp
  have h3 : updatedMatch l = false := by
    revert h; unfold anyLabelMatch; cases updatedMatch l <;> simp
  have h4 : expiryMatch l = false := by
    revert h; unfold anyLabelMatch; cases expiryMatch l <;> simp
  unfold lineStep countryStep creationStep updatedStep expiryStep
  rw [h1, h2, h3, h4]
  rfl

/-- Folding over lines with no label matches is the identity. -/
theorem parseLines_no_label (ls : List (List Char)) :
    ∀ st : ParseState, (ls.all (fun l => !anyLabelMatch l)) = true →
      ls.foldl lineStep st = st := by
  induction ls with
  | nil => intro st _; rfl
  | cons a t ih =>
    intro st h
    rw [List.all_cons, Bool.and_eq_true] at h
    rw [List.foldl_cons, lineStep_id_of_no_label st a (by simpa using h.1)]
    exact ih st h.2

/-- Claim C7: `parseWhoisOutput` is total (it is a function into
`ParsedRecord`; absence of a field is the only failure mode), and on text
whose lines match no label it returns the record with all four fields
absent. -/
theorem parse_total_no_labels :
    (∀ raw : String,
      (((splitOnChar '\n' raw.data).map trimList).all (fun l => !anyLabelMatch l)) = true →
      parseWhoisOutput raw = ⟨none, none, none, none⟩) ∧
    parseWhoisOutput "hello world\nnothing to see here" = ⟨none, none, none, none⟩ := by
  constructor
  · intro raw h
    unfold parseWhoisOutput parseLines
    rw [parseLines_no_label _ _ h]
    rfl
  · decide

/-- Witness for C7 on label-free text. -/
theorem parse_total_no_labels_witness :
    parseWhoisOutput "just some text\nwith no labels" = ⟨none, none, none, none⟩ :=
  parse_total_no_labels.1 "just some text\nwith no labels" (by decide)

/-- A line contributing neither a country value nor a date is a no-op. -/
theorem lineStep_noop (st : ParseState) (l : List Char)
    (hc : producesCountry l = none) (hd : extractDateL l = none) :
    lineStep st l = st := by
  have h1 : countryStep st l = st := by
    unfold producesCountry at hc
    by_cases hm : countryMatch l = true
    · rw [if_pos hm] at hc
      unfold countryStep
      rw [if_pos hm, hc]
    · unfold countryStep
      rw [if_neg hm]
  have h2 : ∀ st2 : ParseState, creationStep st2 l = st2 := by
    intro st2
    unfold creationStep
    by_cases hm : creationMatch l = true
    · rw [if_pos hm, hd]
    · rw [if_neg hm]
  have h3 : ∀ st2 : ParseState, updatedStep st2 l = st2 := by
    intro st2
    unfold updatedStep
    by_cases hm : updatedMatch l = true
    · rw [if_pos hm, hd]
    · rw [if_neg hm]
  have h4 : ∀ st2 : ParseState, expiryStep st2 l = st2 := by
    intro st2
    unfold expiryStep
    by_cases hm : expiryMatch l = true
    · rw [if_pos hm, hd]
    · rw [if_neg hm]
  unfold lineStep
  rw [h1, h2, h3, h4]

/-- Claim C9: a matching line with no usable value never clears a
previously set field — appending such a line changes nothing, and in a
concrete record an empty `Country:` line and a dateless
`Creation Date:` line retain the earlier values. -/
theorem no_value_no_clear :
    (∀ (ls : List (List Char)) (l : List Char),
      producesCountry l = none → extractDateL l = none →
      parseLines (ls ++ [l]) = parseLines ls) ∧
    parseWhoisOutput "Registrant Country: US\nCountry:\nCreation Date: 2020-05-01\nCreation Date: unknown"
      = { registrantCountry := some "US", creationDate := some ⟨2020, 5, 1⟩,
          updatedDate := none, expiryDate := none } := by
  constructor
  · intro ls l hc hd
    unfold parseLines
    rw [List.foldl_append, List.foldl_cons, List.foldl_nil]
    exact lineStep_noop _ l hc hd
  · decide

/-- Witness for C9: a value-free line appended after a country line. -/
theorem no_value_no_clear_witness :
    parseLines ([("country: US").data] ++ [("creation date: not recorded").data])
      = parseLines [("country: US").data] :=
  no_value_no_clear.1 [("country: US").data] (("creation date: not recorded").data)
    (by decide) (by decide)

/-- Claim C8: an input whose trimmed form is empty makes `normalize`
return null and the loop reach `Done`; this is the sole termination —
any input with non-empty trimmed form returns the loop to
`AwaitingInput` whatever the normalization and lookup outcomes. -/
theorem loop_termination (s : String) (lookup : String → Except String String) :
    (trimList s.data = [] →
      getCleanHostname s = none ∧ loopStep s lookup = LoopState.done) ∧
    (trimList s.data ≠ [] → loopStep s lookup = LoopState.awaitingInput) := by
  constructor
  · intro h
    constructor
    · unfold getCleanHostname
      by_cases he : s.data.isEmpty = true
      · rw [if_pos he]
      · rw [if_neg he, h]
        decide
    · unfold loopStep
      rw [if_pos h]
  · intro h
    unfold loopStep
    rw [if_neg h]
    cases getCleanHostname (String.mk (trimList s.data)) with
    | none => rfl
    | some hn =>
      cases hl : lookup hn with
      | error e => simp [hl]
      | ok r => simp [hl]

/-- Witness for C8 at the empty input. -/
theorem loop_termination_witness :
    getCleanHostname "" = none ∧
    loopStep "" (fun _ => Except.error "lookup failed") = LoopState.done :=
  (loop_termination "" (fun _ => Except.error "lookup failed")).1 (by decide)

/-! ## The country value: between the first two colons (C4) -/

/-- Modelled from the claim text, for refinement comparison only: the
country value as the claim words it — everything after the FIRST colon,
trimmed, further colons kept. -/
def countryValueFirstColonSpec (l : List Char) : List Char :=
  trimList ((l.dropWhile (fun c => c != ':')).drop 1)

/-- `splitOnChar` never returns the empty list. -/
theorem splitOnChar_ne_nil (sep : Char) : ∀ l : List Char, splitOnChar sep l ≠ [] := by
  intro l
  induction l with
  | nil => simp [splitOnChar]
  | cons x rest ih =>
    by_cases hx : x = sep
    · simp [splitOnChar, hx]
    · simp only [splitOnChar, if_neg hx]
      cases splitOnChar sep rest <;> simp

/-- The first piece of `splitOnChar` is the longest separator-free
front. -/
theorem splitOnChar_head (sep : Char) :
    ∀ l : List Char, ∃ t, splitOnChar sep l = (l.takeWhile (fun c => c != sep)) :: t := by
  intro l
  induction l with
  | nil => exact ⟨[], rfl⟩
  | cons x rest ih =>
    by_cases hx : x = sep
    · refine ⟨splitOnChar sep rest, ?_⟩
      simp [splitOnChar, hx, List.takeWhile_cons]
    · obtain ⟨t, ht⟩ := ih
      refine ⟨t, ?_⟩
      simp [splitOnChar, hx, ht, List.takeWhile_cons]

/-- The second piece of `splitOnChar` is the text between the first and
second separators, when a separator exists at all. -/
theorem splitOnChar_get1 (sep : Char) :
    ∀ l : List Char,
      (splitOnChar sep l).get? 1 =
        if l.any (fun c => c == sep) then
          some (((l.dropWhile (fun c => c != sep)).drop 1).takeWhile (fun c => c != sep))
        else none := by
  intro l
  induction l with
  | nil => rfl
  | cons x rest ih =>
    by_cases hx : x = sep
    · obtain ⟨t, ht⟩ := splitOnChar_head sep rest
      simp [splitOnChar, hx, ht, List.any_cons, List.dropWhile_cons]
    · cases hsp : splitOnChar sep rest with
      | nil => exact absurd hsp (splitOnChar_ne_nil sep rest)
      | cons h t =>
        have lhs_eq : (splitOnChar sep (x :: rest)).get? 1 = (splitOnChar sep rest).get? 1 := by
          simp only [splitOnChar, if_neg hx, hsp]
          rfl
        rw [lhs_eq, ih]
        simp [List.any_cons, List.dropWhile_cons, hx]

/-- `countryVal` in closed form: the trimmed text between the first and
second colons, when non-empty. -/
theorem countryVal_eq (l : List Char) :
    countryVal l =
      (if trimList (((l.dropWhile (fun c => c != ':')).drop 1).takeWhile (fun c => c != ':')) = []
       then none
       else some (trimList (((l.dropWhile (fun c => c != ':')).drop 1).takeWhile (fun c => c != ':')))) := by
  unfold countryVal
  rw [List.get?_map, splitOnChar_get1]
  by_cases h : l.any (fun c => c == ':') = true
  · rw [if_pos h]
    rfl
  · rw [if_neg h]
    have hd : l.dropWhile (fun c => c != ':') = [] := by
      rw [List.dropWhile_eq_nil_iff]
      intro x hx
      by_contra hne
      exact h (List.any_eq_true.mpr ⟨x, hx, by simpa using hne⟩)
    rw [hd]
    decide

/-- Counterexample to claim C4 as stated: on the line
`Country: US: extra` the code keeps `"US"`, not the claimed
`"US: extra"` (the source splits on every colon and takes index 1, so a
second colon truncates the value). -/
theorem country_value_first_colon_counterexample :
    countryMatch ("Country: US: extra").data = true ∧
    countryValueFirstColonSpec ("Country: US: extra").data = ("US: extra").data ∧
    (parseWhoisOutput "Country: US: extra").registrantCountry
      ≠ some (String.mk (countryValueFirstColonSpec ("Country: US: extra").data)) ∧
    (parseWhoisOutput "Country: US: extra").registrantCountry = some "US" := by
  refine ⟨by decide, by decide, ?_, by decide⟩
  decide

/-- Claim C4 (amended): for every country-matching line, the extracted
value is the text between the first and second colons (everything after
the first colon when no second colon exists), trimmed, taken only if
non-empty. -/
theorem country_value_between_colons (st : ParseState) (l : List Char)
    (h : countryMatch l = true) :
    (lineStep st l).registrantCountry =
      (if trimList (((l.dropWhile (fun c => c != ':')).drop 1).takeWhile (fun c => c != ':')) = []
       then st.registrantCountry
       else some (trimList (((l.dropWhile (fun c => c != ':')).drop 1).takeWhile (fun c => c != ':')))) := by
  rw [lineStep_rc]
  unfold countryStep
  rw [if_pos h, countryVal_eq]
  by_cases hv : trimList (((l.dropWhile (fun c => c != ':')).drop 1).takeWhile (fun c => c != ':')) = []
  · rw [if_pos hv, if_pos hv]
  · rw [if_neg hv, if_neg hv]

/-- Witness for amended C4 at the counterexample line. -/
theorem country_value_between_colons_witness :
    (lineStep ⟨none, none, none, none⟩ ("Country: US: extra").data).registrantCountry
      = some ("US").data := by
  rw [country_value_between_colons ⟨none, none, none, none⟩ ("Country: US: extra").data (by decide)]
  decide

/-! ## The shape of a normalized hostname (C5) -/

/-- Every character either is fixed by lowercasing or is an uppercase
ASCII letter. -/
theorem lowerChar_cases (c : Char) : lowerChar c = c ∨ c ∈ upperAscii := by
  by_cases h1 : c = 'A'
  · right; rw [h1]; decide
  by_cases h2 : c = 'B'
  · right; rw [h2]; decide
  by_cases h3 : c = 'C'
  · right; rw [h3]; decide
  by_cases h4 : c = 'D'
  · right; rw [h4]; decide
  by_cases h5 : c = 'E'
  · right; rw [h5]; decide
  by_cases h6 : c = 'F'
  · right; rw [h6]; decide
  by_cases h7 : c = 'G'
  · right; rw [h7]; decide
  by_cases h8 : c = 'H'
  · right; rw [h8]; decide
  by_cases h9 : c = 'I'
  · right; rw [h9]; decide
  by_cases h10 : c = 'J'
  · right; rw [h10]; decide
  by_cases h11 : c = 'K'
  · right; rw [h11]; decide
  by_cases h12 : c = 'L'
  · right; rw [h12]; decide
  by_cases h13 : c = 'M'
  · right; rw [h13]; decide
  by_cases h14 : c = 'N'
  · right; rw [h14]; decide
  by_cases h15 : c = 'O'
  · right; rw [h15]; decide
  by_cases h16 : c = 'P'
  · right; rw [h16]; decide
  by_cases h17 : c = 'Q'
  · right; rw [h17]; decide
  by_cases h18 : c = 'R'
  · right; rw [h18]; decide
  by_cases h19 : c = 'S'
  · right; rw [h19]; decide
  by_cases h20 : c = 'T'
  · right; rw [h20]; decide
  by_cases h21 : c = 'U'
  · right; rw [h21]; decide
  by_cases h22 : c = 'V'
  · right; rw [h22]; decide
  by_cases h23 : c = 'W'
  · right; rw [h23]; decide
  by_cases h24 : c = 'X'
  · right; rw [h24]; decide
  by_cases h25 : c = 'Y'
  · right; rw [h25]; decide
  by_cases h26 : c = 'Z'
  · right; rw [h26]; decide
  left
  unfold lowerChar
  rw [if_neg h1, if_neg h2, if_neg h3, if_neg h4, if_neg h5, if_neg h6, if_neg h7,
      if_neg h8, if_neg h9, if_neg h10, if_neg h11, if_neg h12, if_neg h13, if_neg h14,
      if_neg h15, if_neg h16, if_neg h17, if_neg h18, if_neg h19, if_neg h20, if_neg h21,
      if_neg h22, if_neg h23, if_neg h24, if_neg h25, if_neg h26]

/-- Lowercasing is idempotent. -/
theorem lowerChar_fix (c : Char) : lowerChar (lowerChar c) = lowerChar c := by
  rcases lowerChar_cases c with h | h
  · rw [h, h]
  · unfold upperAscii at h
    fin_cases h <;> decide

/-- Lowercasing preserves the forbidden-host-code-point status. -/
theorem forbiddenHostChar_lowerChar (c : Char) :
    forbiddenHostChar (lowerChar c) = forbiddenHostChar c := by
  rcases lowerChar_cases c with h | h
  · rw [h]
  · unfold upperAscii at h
    fin_cases h <;> decide

/-- A host accepted by the URL parse contains no forbidden host code
point. -/
theorem parseURLHost_all_ok (t host : List Char) (h : parseURLHost t = some host) :
    ∀ c ∈ host, forbiddenHostChar c = false := by
  unfold parseURLHost at h
  cases hs : stripSchemeCI t with
  | none => simp [hs] at h
  | some rest =>
    simp only [hs] at h
    split_ifs at h with hc
    injection h with h
    rw [Bool.and_eq_true] at hc
    have h1 := hc.1
    unfold hostOk at h1
    rw [Bool.and_eq_true] at h1
    have h2 := h1.2
    rw [List.all_eq_true] at h2
    intro c hcmem
    rw [← h] at hcmem
    have h3 := h2 c hcmem
    rw [Bool.and_eq_true] at h3
    simpa using h3.1

/-- The shape invariant of a normalized hostname, stated over the
embedding: every character is already lowercase (fixed by lowercasing),
no character is a forbidden host code point (hence no colon and no
slash), the string carries no `http://` or `https://` scheme prefix,
and it arises from the parsed URL host by lowercasing and stripping
exactly one leading `www.` label. -/
def CleanOutputOK (s h : String) : Prop :=
  (∀ c ∈ h.data, lowerChar c = c) ∧
  (∀ c ∈ h.data, forbiddenHostChar c = false) ∧
  ¬ ("http://").data.isPrefixOf h.data = true ∧
  ¬ ("https://").data.isPrefixOf h.data = true ∧
  ∃ host, parseURLHost (withScheme (trimList s.data)) = some host ∧
    h.data = stripWww (lowerL host)

/-- Counterexample to claim C5 as stated: for the input
`www.www.example.com` the returned hostname `www.example.com` still
begins with a `www.` label — only one leading `www.` is stripped. -/
theorem stripWww_once_counterexample :
    getCleanHostname "www.www.example.com" = some "www.example.com" ∧
    ("www.").data.isPrefixOf ("www.example.com").data = true := by
  constructor
  · decide
  · decide

/-- Claim C5 (amended): every hostname returned by the normalizer is
lowercase, free of forbidden host code points, carries no scheme prefix,
and equals the URL host after lowercasing with exactly one leading
`www.` label stripped — so it may itself begin with `www.` when the host
repeated the label. -/
theorem clean_hostname_shape (s h : String) (hcl : getCleanHostname s = some h) :
    CleanOutputOK s h := by
  unfold getCleanHostname at hcl
  by_cases he : s.data.isEmpty = true
  · rw [if_pos he] at hcl; exact absurd hcl (by simp)
  · rw [if_neg he] at hcl
    cases hp : parseURLHost (withScheme (trimList s.data)) with
    | none => rw [hp] at hcl; exact absurd hcl (by simp)
    | some host =>
      rw [hp] at hcl
      injection hcl with hcl
      have hdata : h.data = stripWww (lowerL host) := by rw [← hcl]
      have hsub : ∀ c ∈ h.data, c ∈ lowerL host := by
        intro c hc
        rw [hdata] at hc
        unfold stripWww at hc
        by_cases hw : ("www.").data.isPrefixOf (lowerL host) = true
        · rw [if_pos hw] at hc
          exact List.drop_subset _ _ hc
        · rw [if_neg hw] at hc
          exact hc
      have hforb : ∀ c ∈ h.data, forbiddenHostChar c = false := by
        intro c hc
        obtain ⟨a, ha, rfl⟩ := List.mem_map.mp (hsub c hc)
        rw [forbiddenHostChar_lowerChar a]
        exact parseURLHost_all_ok _ _ hp a ha
      have hlow : ∀ c ∈ h.data, lowerChar c = c := by
        intro c hc
        obtain ⟨a, _, rfl⟩ := List.mem_map.mp (hsub c hc)
        exact lowerChar_fix a
      have hnopre : ∀ pre : List Char, (':') ∈ pre → ¬ pre.isPrefixOf h.data = true := by
        intro pre hcolon hpre
        have h4 : (':') ∈ h.data :=
          (List.isPrefixOf_iff_prefix.mp hpre).subset hcolon
        have h5 := hforb ':' h4
        exact absurd h5 (by decide)
      exact ⟨hlow, hforb, hnopre _ (by decide), hnopre _ (by decide), host, hp, hdata⟩

/-- Witness for amended C5 at a concrete mixed-case input. -/
theorem clean_hostname_shape_witness :
    CleanOutputOK "https://WWW.Example.com/path" "example.com" :=
  clean_hostname_shape "https://WWW.Example.com/path" "example.com" (by decide)
